import Mathlib

/-!
Verification of the local-authentication bridge layer (`tid.h`).

The repository's `src/` holds only the C boundary header

  void*   create_la_context();
  void    drop_la_context(void* ctx);
  void    set_localized_cancel_title(void* ctx, char* reason);
  int32_t can_evaluate_policy(void* ctx, int32_t policy);
  void    evaluate_policy(void* ctx, int32_t policy, char* reason,
                          void* user_data, void* callback);

so the operations' behaviour behind these declarations is modelled from the
specification (each such definition carries a doc comment starting with
`Modelled from the spec:`).  Signature-level facts (which operation has a
return value, the `int32_t` policy domain) come from the header itself.

Opaque C references (`void*` user data and callback pointers) are modelled by
their identity only, as natural numbers; a `char*` text is a `String`; an
`int32_t` is an `Int` together with explicit two's-complement range bounds
where a claim speaks about the 32-bit domain.
-/

/-- Evaluation state of a Context: `Idle` or `Evaluating` (a destroyed
Context no longer exists as a value, so destruction is modelled by consuming
the Context rather than by a state). -/
inductive EvalState
  | idle
  | evaluating
  deriving DecidableEq, Repr

/-- Terminal outcome classification of one evaluation, as listed by the
specification. -/
inductive Outcome
  | succeeded
  | userCanceled
  | systemCanceled
  | authenticationFailed
  | policyUnavailable
  | unknown
  deriving DecidableEq, Repr

/-- One EvaluationRequest: the tuple submitted to start an evaluation.
`userData` and `callback` stand for the identities of the opaque `void*`
references; the core never dereferences them, only forwards them. -/
structure Request where
  policy : Int
  reason : String
  userData : Nat
  callback : Nat
  deriving DecidableEq, Repr

/-- EvaluationResult delivered to the callback: success flag, optional error
classification, optional diagnostic message. -/
structure EvaluationResult where
  success : Bool
  error : Option Outcome
  message : Option String
  deriving DecidableEq, Repr

/-- A recorded callback invocation: which callback reference was invoked,
the opaque user-data reference it received, and the result payload. -/
structure CallbackEvent where
  userData : Nat
  callback : Nat
  result : EvaluationResult
  deriving DecidableEq, Repr

/-- A Context: mutable configuration slot (cancel-affordance text), the
evaluation state, and the in-flight request when `evaluating`. -/
structure LAContext where
  state : EvalState
  cancelTitle : Option String
  pending : Option Request
  deriving DecidableEq, Repr

/-- Host authentication subsystem state: which policy identifiers it knows,
and which of them are currently satisfiable (hardware present, credentials
enrolled, no lockout).  Owned by the host; this core never interprets it. -/
structure HostState where
  known : List Int
  satisfiable : List Int
  deriving DecidableEq, Repr

/-- Modelled from the spec: the host subsystem's own availability answer for
a policy (the implementation behind the header is not in `src/`).  A policy
it does not know is not satisfiable. -/
def HostState.canEvaluate (h : HostState) (p : Int) : Bool :=
  decide (p ∈ h.known) && decide (p ∈ h.satisfiable)

/-- Whether a result's classification is consistent with cancellation. -/
def EvaluationResult.isCancellation (r : EvaluationResult) : Bool :=
  match r.error with
  | some Outcome.userCanceled => true
  | some Outcome.systemCanceled => true
  | _ => false

/-- Modelled from the spec: the EvaluationResult the Evaluator builds from a
host-reported outcome (`evaluate_policy`'s completion path is not in `src/`).
Success carries no error classification; every failure carries its class and
forwards the host's optional diagnostic message. -/
def hostResult (o : Outcome) (m : Option String) : EvaluationResult :=
  match o with
  | Outcome.succeeded => { success := true, error := none, message := m }
  | o => { success := false, error := some o, message := m }

/-- Modelled from the spec: `create_la_context` (body not in `src/`).
Allocates a fresh Context in state `Idle`, or returns the null sentinel
(`none`) when the host subsystem cannot allocate one. -/
def create_la_context (hostCanAllocate : Bool) : Option LAContext :=
  if hostCanAllocate then
    some { state := EvalState.idle, cancelTitle := none, pending := none }
  else
    none

/-- Modelled from the spec: `set_localized_cancel_title` (body not in
`src/`).  While `Idle` it stores the label for the next evaluation; while
`Evaluating` the call is ignored, not applied retroactively. -/
def set_localized_cancel_title (ctx : LAContext) (reason : String) : LAContext :=
  match ctx.state with
  | EvalState.idle => { ctx with cancelTitle := some reason }
  | EvalState.evaluating => ctx

/-- Modelled from the spec: `can_evaluate_policy` (body not in `src/`).
Synchronous and side-effect-free: it forwards the policy token verbatim to
the host subsystem and returns the host's boolean answer together with the
Context, which it leaves untouched. -/
def can_evaluate_policy (host : HostState) (ctx : LAContext) (policy : Int) :
    Bool × LAContext :=
  (host.canEvaluate policy, ctx)

/-- Modelled from the spec: `evaluate_policy` (body not in `src/`).
If the Context is `Idle` the call is accepted: the Context transitions to
`Evaluating` and the request (policy forwarded verbatim, reason, opaque
user-data and callback references) is handed to the host; otherwise the call
is rejected synchronously, leaving the Context unchanged.  Either way no
callback fires synchronously (middle component) and, per the header, the C
function returns `void` (last component). -/
def evaluate_policy (ctx : LAContext) (policy : Int) (reason : String)
    (userData : Nat) (callback : Nat) : LAContext × List CallbackEvent × Unit :=
  match ctx.state with
  | EvalState.idle =>
      ({ ctx with
          state := EvalState.evaluating
          pending := some { policy := policy, reason := reason,
                            userData := userData, callback := callback } },
        [], ())
  | EvalState.evaluating => (ctx, [], ())

/-- Modelled from the spec: the Evaluator's completion path (not in `src/`).
Exactly once, the host reports an outcome for the in-flight request; the
Evaluator returns the Context to `Idle` and invokes the stored callback with
the EvaluationResult and the original user-data reference.  With no request
in flight there is nothing to complete and nothing fires. -/
def host_complete (ctx : LAContext) (o : Outcome) (m : Option String) :
    LAContext × List CallbackEvent :=
  match ctx.pending with
  | some req =>
      ({ ctx with state := EvalState.idle, pending := none },
        [{ userData := req.userData, callback := req.callback,
           result := hostResult o m }])
  | none => (ctx, [])

/-- Modelled from the spec: `drop_la_context` (body not in `src/`), under the
deliver-then-free contract the spec's scenario fixes: destroying a Context
with an evaluation in flight first cancels it at the host level and delivers
the pending callback, classified `SystemCanceled`, before the resources are
released.  The Context is consumed; the returned list is the complete set of
callback invocations destruction can ever produce, so no invocation can
occur after release. -/
def drop_la_context (ctx : LAContext) : List CallbackEvent :=
  match ctx.pending with
  | some req =>
      [{ userData := req.userData, callback := req.callback,
         result := hostResult Outcome.systemCanceled none }]
  | none => []

/-- Commands a caller and the host can direct at one Context while it is
alive; `drop_la_context` is terminal and therefore not a command. -/
inductive Cmd
  | evaluate (policy : Int) (reason : String) (userData : Nat) (callback : Nat)
  | setTitle (s : String)
  | canEval (policy : Int)
  | hostComplete (o : Outcome) (m : Option String)
  deriving DecidableEq, Repr

/-- `true` for every command other than an `evaluate` call. -/
def Cmd.nonEvaluate : Cmd → Bool
  | Cmd.evaluate _ _ _ _ => false
  | _ => true

/-- One step of the bridge: dispatch a command to the operation it names and
collect the callback invocations it produces. -/
def step (host : HostState) (ctx : LAContext) : Cmd → LAContext × List CallbackEvent
  | Cmd.evaluate p r u cb =>
      ((evaluate_policy ctx p r u cb).1, (evaluate_policy ctx p r u cb).2.1)
  | Cmd.setTitle s => (set_localized_cancel_title ctx s, [])
  | Cmd.canEval p => ((can_evaluate_policy host ctx p).2, [])
  | Cmd.hostComplete o m => host_complete ctx o m

/-- Run a command sequence against a Context, accumulating every callback
invocation in order. -/
def run (host : HostState) : LAContext → List Cmd → LAContext × List CallbackEvent
  | ctx, [] => (ctx, [])
  | ctx, c :: cs =>
      ((run host (step host ctx c).1 cs).1,
        (step host ctx c).2 ++ (run host (step host ctx c).1 cs).2)

/-- A well-formed Idle context for concrete evaluations. -/
def idleCtx : LAContext :=
  { state := EvalState.idle, cancelTitle := none, pending := none }

/-- A concrete in-flight request. -/
def busyReq : Request :=
  { policy := 2, reason := "auth", userData := 5, callback := 9 }

/-- A well-formed Evaluating context for concrete evaluations. -/
def busyCtx : LAContext :=
  { state := EvalState.evaluating, cancelTitle := none, pending := some busyReq }

/-- A concrete host state: policies 1 and 2 known, only 1 satisfiable. -/
def host0 : HostState := { known := [1, 2], satisfiable := [1] }

/-- A concrete localized label. -/
def title0 : String := "Cancel"

theorem run_nonEvaluate (host : HostState) :
    ∀ (cs : List Cmd) (ctx : LAContext), ctx.pending = none →
      (∀ c ∈ cs, c.nonEvaluate = true) →
      (run host ctx cs).2 = [] ∧ (run host ctx cs).1.pending = none := by
  intro cs
  induction cs with
  | nil => intro ctx hp _; exact ⟨rfl, hp⟩
  | cons c cs ih =>
      intro ctx hp hall
      have hc : c.nonEvaluate = true := hall c (List.mem_cons_self c cs)
      have hcs : ∀ c ∈ cs, c.nonEvaluate = true :=
        fun c hmem => hall c (List.mem_cons_of_mem _ hmem)
      have hstep : (step host ctx c).2 = [] ∧ (step host ctx c).1.pending = none := by
        cases c with
        | evaluate p r u cb => simp [Cmd.nonEvaluate] at hc
        | setTitle s =>
            refine ⟨rfl, ?_⟩
            unfold step set_localized_cancel_title
            cases ctx.state <;> simpa using hp
        | canEval p => exact ⟨rfl, hp⟩
        | hostComplete o m =>
            unfold step host_complete
            rw [hp]
            exact ⟨rfl, hp⟩
      have htail := ih (step host ctx c).1 hstep.2 hcs
      constructor
      · show (step host ctx c).2 ++ (run host (step host ctx c).1 cs).2 = []
        rw [hstep.1, htail.1]
        rfl
      · exact htail.2

/-- C1: an accepted `evaluate` call (the Context is `Idle`), followed by the
host reporting any outcome — cancellation included — and then any further
non-`evaluate` activity, invokes the supplied callback exactly once, never
zero times and never more than once, and the opaque user-data reference it
delivers is identical to the one supplied to `evaluate_policy`. -/
theorem evaluate_callback_exactly_once
    (host : HostState) (ctx : LAContext) (p : Int) (r : String) (u cb : Nat)
    (o : Outcome) (m : Option String) (rest : List Cmd)
    (hidle : ctx.state = EvalState.idle) (hpend : ctx.pending = none)
    (hrest : ∀ c ∈ rest, c.nonEvaluate = true) :
    (run host (evaluate_policy ctx p r u cb).1 (Cmd.hostComplete o m :: rest)).2 =
      [{ userData := u, callback := cb, result := hostResult o m }] := by
  have hctx1 : (evaluate_policy ctx p r u cb).1 =
      { ctx with state := EvalState.evaluating,
                 pending := some { policy := p, reason := r,
                                   userData := u, callback := cb } } := by
    unfold evaluate_policy
    rw [hidle]
  have htail := run_nonEvaluate host rest
      { ctx with state := EvalState.idle, pending := none } rfl hrest
  simp [run, step, host_complete, hctx1, htail.1]

/-- C1 witness: a concrete accepted call whose single callback carries the
supplied user-data reference, on a cancellation outcome. -/
theorem evaluate_callback_exactly_once_witness :
    (run host0 (evaluate_policy idleCtx 1 title0 7 3).1
        [Cmd.hostComplete Outcome.systemCanceled none]).2 =
      [{ userData := 7, callback := 3,
         result := hostResult Outcome.systemCanceled none }] :=
  evaluate_callback_exactly_once host0 idleCtx 1 title0 7 3
    Outcome.systemCanceled none [] rfl rfl (by intro c h; cases h)

/-- C2: a second `evaluate_policy` on a Context already `Evaluating` is
rejected synchronously: the Context — its in-flight request included — is
returned unchanged and no callback is scheduled for the rejected call. -/
theorem evaluate_rejected_while_evaluating
    (ctx : LAContext) (p : Int) (r : String) (u cb : Nat)
    (h : ctx.state = EvalState.evaluating) :
    evaluate_policy ctx p r u cb = (ctx, [], ()) := by
  unfold evaluate_policy
  rw [h]

/-- C2 witness: the concrete Evaluating context rejects a second call
unchanged. -/
theorem evaluate_rejected_while_evaluating_witness :
    evaluate_policy busyCtx 1 title0 0 0 = (busyCtx, [], ()) :=
  evaluate_rejected_while_evaluating busyCtx 1 title0 0 0 rfl

/-- C3: destroying a Context while `Evaluating` cancels the in-flight
evaluation and delivers its callback, classified consistently with
cancellation (`SystemCanceled`), to the stored user-data reference; the
returned list is everything destruction emits, and the Context is consumed,
so no callback invocation occurs after the resources are released. -/
theorem drop_while_evaluating_cancels
    (ctx : LAContext) (req : Request)
    (hs : ctx.state = EvalState.evaluating) (hp : ctx.pending = some req) :
    drop_la_context ctx =
      [{ userData := req.userData, callback := req.callback,
         result := hostResult Outcome.systemCanceled none }] ∧
    ∀ e ∈ drop_la_context ctx, e.result.isCancellation = true := by
  have hdrop : drop_la_context ctx =
      [{ userData := req.userData, callback := req.callback,
         result := hostResult Outcome.systemCanceled none }] := by
    unfold drop_la_context
    rw [hp]
  refine ⟨hdrop, ?_⟩
  intro e he
  rw [hdrop] at he
  simp at he
  rw [he]
  rfl

/-- C3 witness: dropping the concrete Evaluating context emits exactly the
cancellation callback for its stored user data. -/
theorem drop_while_evaluating_cancels_witness :
    drop_la_context busyCtx =
      [{ userData := busyReq.userData, callback := busyReq.callback,
         result := hostResult Outcome.systemCanceled none }] ∧
    ∀ e ∈ drop_la_context busyCtx, e.result.isCancellation = true :=
  drop_while_evaluating_cancels busyCtx busyReq rfl rfl

/-- C4 counterexample: per the header `evaluate_policy` returns `void`, so a
rejected call (Context `Evaluating`) returns the very same value as an
accepted call (Context `Idle`): `RejectedConcurrentEvaluation` cannot be
reported to the caller via the return value of the operation that failed. -/
theorem evaluate_return_value_cannot_report_rejection :
    idleCtx.state = EvalState.idle ∧
    busyCtx.state = EvalState.evaluating ∧
    (evaluate_policy busyCtx 1 title0 0 0).2.2 = () ∧
    (evaluate_policy busyCtx 1 title0 0 0).2.2 =
      (evaluate_policy idleCtx 1 title0 0 0).2.2 :=
  ⟨rfl, rfl, rfl, rfl⟩

/-- C4 (amended): `AllocationFailed` is reported immediately via
`create_la_context`'s return value (the null sentinel); a rejected concurrent
`evaluate_policy` is rejected synchronously but, the function returning
`void`, not through a return value; and `evaluate_policy` itself never
reports an evaluation outcome — it emits no callback synchronously, outcomes
travel solely through the asynchronous callback. -/
theorem sync_failure_reporting :
    create_la_context false = none ∧
    (∀ ctx p r u cb, (evaluate_policy ctx p r u cb).2.2 = ()) ∧
    (∀ ctx p r u cb, (evaluate_policy ctx p r u cb).2.1 = []) := by
  refine ⟨rfl, fun ctx p r u cb => rfl, fun ctx p r u cb => ?_⟩
  unfold evaluate_policy
  cases ctx.state <;> rfl

/-- C5: `create_la_context` returns the null sentinel when the host cannot
allocate, and every non-null Context it returns is in state `Idle` (with no
request in flight) — never in any other state. -/
theorem create_idle_or_none :
    create_la_context false = none ∧
    ∀ ok ctx, create_la_context ok = some ctx →
      ctx.state = EvalState.idle ∧ ctx.pending = none := by
  refine ⟨rfl, ?_⟩
  intro ok ctx h
  cases ok with
  | false => cases h
  | true =>
      have : ctx = { state := EvalState.idle, cancelTitle := none, pending := none } :=
        (Option.some_inj.mp h).symm
      rw [this]
      exact ⟨rfl, rfl⟩

/-- C5 witness: a successful creation yields the concrete Idle context. -/
theorem create_idle_or_none_witness :
    idleCtx.state = EvalState.idle ∧ idleCtx.pending = none :=
  create_idle_or_none.2 true idleCtx rfl

/-- C6: `can_evaluate_policy` is side-effect-free and idempotent: it returns
the Context untouched (so the evaluation state is unchanged and in
particular never becomes `Evaluating`), and a repeated call with the same
(context, policy) pair under the same host state returns the same result. -/
theorem can_evaluate_idempotent_pure
    (host : HostState) (ctx : LAContext) (p : Int) :
    (can_evaluate_policy host ctx p).2 = ctx ∧
    (can_evaluate_policy host ctx p).2.state = ctx.state ∧
    (can_evaluate_policy host (can_evaluate_policy host ctx p).2 p).1 =
      (can_evaluate_policy host ctx p).1 :=
  ⟨rfl, rfl, rfl⟩

/-- C7: a policy identifier the host subsystem does not know is answered
with `false` — `can_evaluate_policy` returns normally rather than failing —
and the Context is left unchanged. -/
theorem can_evaluate_unknown_policy_false
    (host : HostState) (ctx : LAContext) (p : Int)
    (h : p ∉ host.known) :
    (can_evaluate_policy host ctx p).1 = false ∧
    (can_evaluate_policy host ctx p).2 = ctx := by
  constructor
  · simp [can_evaluate_policy, HostState.canEvaluate, h]
  · rfl

/-- C7 witness: the unknown policy 99 is refused by the concrete host and
the context is unchanged. -/
theorem can_evaluate_unknown_policy_false_witness :
    (can_evaluate_policy host0 idleCtx 99).1 = false ∧
    (can_evaluate_policy host0 idleCtx 99).2 = idleCtx :=
  can_evaluate_unknown_policy_false host0 idleCtx 99 (by decide)

/-- C8: `set_localized_cancel_title` only touches the configuration slot for
the next evaluation: the evaluation state and the in-flight request are
unchanged by every call; a call while `Evaluating` is ignored entirely (the
Context is returned identical); a call while `Idle` stores the label. -/
theorem set_cancel_title_frame (ctx : LAContext) (s : String) :
    (set_localized_cancel_title ctx s).state = ctx.state ∧
    (set_localized_cancel_title ctx s).pending = ctx.pending ∧
    (ctx.state = EvalState.evaluating → set_localized_cancel_title ctx s = ctx) ∧
    (ctx.state = EvalState.idle →
      (set_localized_cancel_title ctx s).cancelTitle = some s) := by
  cases h : ctx.state <;> simp [set_localized_cancel_title, h]

/-- C8 witness: a call on the concrete Evaluating context is ignored. -/
theorem set_cancel_title_frame_witness :
    set_localized_cancel_title busyCtx title0 = busyCtx :=
  (set_cancel_title_frame busyCtx title0).2.2.1 rfl

/-- C9: at the boundary `evaluate_policy` returns no value — its synchronous
return is `()` whatever the Context — and it emits no callback
synchronously; its entire synchronous output equals that of a call rejected
on an `Evaluating` context, so acceptance versus rejection is not observable
from the call itself, only through the eventual asynchronous callback. -/
theorem evaluate_returns_void
    (ctx : LAContext) (p : Int) (r : String) (u cb : Nat) :
    (evaluate_policy ctx p r u cb).2.2 = () ∧
    (evaluate_policy ctx p r u cb).2.1 = [] ∧
    (evaluate_policy ctx p r u cb).2 = (evaluate_policy busyCtx p r u cb).2 := by
  refine ⟨rfl, ?_, ?_⟩ <;>
    · unfold evaluate_policy
      cases ctx.state <;> rfl

/-- C10: both policy-taking operations are total over the whole `int32_t`
domain: for every in-range policy value, `can_evaluate_policy` returns the
host's answer for exactly that token with the Context untouched, and
`evaluate_policy` forwards the token verbatim into the request it hands the
host while its acceptance decision never depends on the token's value. -/
theorem policy_domain_total_opaque
    (host : HostState) (ctx : LAContext) (p : Int) (r : String) (u cb : Nat)
    (h1 : -(2 ^ 31) ≤ p) (h2 : p < 2 ^ 31) :
    (can_evaluate_policy host ctx p).1 = host.canEvaluate p ∧
    (can_evaluate_policy host ctx p).2 = ctx ∧
    (ctx.state = EvalState.idle →
      (evaluate_policy ctx p r u cb).1.pending =
        some { policy := p, reason := r, userData := u, callback := cb }) ∧
    (evaluate_policy ctx p r u cb).1.state =
      (evaluate_policy ctx 0 r u cb).1.state := by
  refine ⟨rfl, rfl, ?_, ?_⟩
  · intro h
    unfold evaluate_policy
    rw [h]
  · unfold evaluate_policy
    cases ctx.state <;> rfl

/-- C10 witness: the extreme `int32_t` value 2147483647 is accepted by both
operations, forwarded verbatim. -/
theorem policy_domain_total_opaque_witness :
    (can_evaluate_policy host0 idleCtx 2147483647).1 =
      host0.canEvaluate 2147483647 ∧
    (can_evaluate_policy host0 idleCtx 2147483647).2 = idleCtx ∧
    (idleCtx.state = EvalState.idle →
      (evaluate_policy idleCtx 2147483647 title0 7 3).1.pending =
        some { policy := 2147483647, reason := title0, userData := 7, callback := 3 }) ∧
    (evaluate_policy idleCtx 2147483647 title0 7 3).1.state =
      (evaluate_policy idleCtx 0 title0 7 3).1.state :=
  policy_domain_total_opaque host0 idleCtx 2147483647 title0 7 3
    (by decide) (by decide)
